import Mathlib

/-!
# Verification of the untwister command-line front end (`src/main.cpp`)

This file gives a shallow embedding of the program's command-line driver:
the `getopt` option-processing loop, the input-file loading, the dispatch
between sample generation, state inference and brute force, the
`FindSeed` result display, and the `DisplayProgress` polling loop.

Facilities of the `Untwister` controller class that are not part of the
source under consideration (its PRNG registry, `inferState`,
`generateSampleFromSeed`, `generateSampleFromState`, default
configuration, and the brute-force engine) are modelled abstractly as an
environment record, with their interface semantics taken from the
specification where a claim depends on them.
-/

/-- The constant `static const unsigned int ONE_YEAR = 31536000;` from main.cpp. -/
def ONE_YEAR : Nat := 31536000

/-- The value `UINT_MAX`, the initial (default) exclusive upper seed bound in main.cpp. -/
def UINT_MAX : Nat := 4294967295

/-- Conversion of a C arithmetic result to `uint32_t` (mod 2^32, non-negative). -/
def u32ofInt (x : Int) : Nat := (x % (4294967296 : Int)).toNat

/-! ## C library model: `strtoul(line, NULL, 0)`

The input-file loop parses every line with `strtoul` in base 0:
leading C whitespace is skipped, an optional sign is read, the base is
detected (`0x`/`0X` prefix followed by a hex digit gives 16, a leading
`0` gives 8, anything else gives 10), a maximal run of digits of that
base is converted (clamped to `ULONG_MAX` on overflow), a minus sign
negates in unsigned `long` arithmetic, and the assignment to `uint32_t`
truncates mod 2^32. -/

/-- The value `ULONG_MAX` on the 64-bit platforms the program targets. -/
def ULONG_MAX : Nat := 2 ^ 64 - 1

/-- C `isspace` for the default locale. -/
def isCSpace (c : Char) : Bool :=
  c = ' ' || c = '\t' || c = '\n' || c = (Char.ofNat 11) || c = (Char.ofNat 12) || c = '\r'

/-- Skip leading C whitespace, as `strtoul` does. -/
def skipCSpaces : List Char → List Char
  | [] => []
  | c :: rest => if isCSpace c then skipCSpaces rest else c :: rest

/-- Read an optional sign; returns whether the value is to be negated. -/
def readSign : List Char → Bool × List Char
  | [] => (false, [])
  | c :: rest =>
    if c = '-' then (true, rest)
    else if c = '+' then (false, rest)
    else (false, c :: rest)

/-- Value of one digit character in the given base, if valid. -/
def digitVal (base : Nat) (c : Char) : Option Nat :=
  let v : Option Nat :=
    if c.isDigit then some (c.toNat - 48)
    else if ('a' ≤ c && c ≤ 'f') then some (c.toNat - 87)
    else if ('A' ≤ c && c ≤ 'F') then some (c.toNat - 55)
    else none
  match v with
  | some d => if d < base then some d else none
  | none => none

/-- Base detection for `strtoul` with base argument 0. A `0x`/`0X`
prefix selects base 16 only when a hex digit follows; otherwise a
leading `0` selects base 8; otherwise base 10. -/
def detectBase : List Char → Nat × List Char
  | [] => (10, [])
  | [c] => if c = '0' then (8, [c]) else (10, [c])
  | c :: c2 :: rest2 =>
    if c = '0' then
      if (c2 = 'x' || c2 = 'X')
          && (match rest2 with | r :: _ => (digitVal 16 r).isSome | [] => false) then
        (16, rest2)
      else (8, c :: c2 :: rest2)
    else (10, c :: c2 :: rest2)

/-- Convert the maximal leading run of valid digits, accumulator style. -/
def parseDigits (base : Nat) : List Char → Nat → Nat
  | [], acc => acc
  | c :: rest, acc =>
    match digitVal base c with
    | some d => parseDigits base rest (acc * base + d)
    | none => acc

/-- Model of `strtoul(s, NULL, 0)` as an `unsigned long` value. -/
def strtoul0 (s : String) : Nat :=
  let cs := skipCSpaces s.toList
  let sr := readSign cs
  let br := detectBase sr.2
  let m := min (parseDigits br.1 br.2 0) ULONG_MAX
  if sr.1 then (2 ^ 64 - m) % 2 ^ 64 else m

/-- The line conversion `uint32_t value = strtoul(line.c_str(), NULL, 0);` — the value a
single input line contributes to the observation buffer. -/
def strtoulBase0U32 (s : String) : Nat := strtoul0 s % 2 ^ 32

/-! ## The controller environment

The `Untwister` object used by `main` is constructed elsewhere; the
claims only depend on the listed interface points, which we carry as an
abstract environment. `defaultPRNG`, `defaultThreads`, and the two
sample generators are modelled from the spec: "algorithm name (default =
first registered), depth (default 1000), worker count (default =
platform suggested parallelism)", `generateSampleFromSeed` /
`generateSampleFromState`, and `inferState`'s boolean outcome. -/
structure Env where
  /-- The predicate `Untwister::isSupportedPRNG` -/
  supported : String → Bool
  /-- the first registered generator name (the default) -/
  defaultPRNG : String
  /-- platform-suggested worker-count default -/
  defaultThreads : Nat
  /-- the boolean outcome of `Untwister::inferState()` for this run -/
  inferOK : Bool
  /-- The sample `Untwister::generateSampleFromSeed(seed)` -/
  sampleFromSeed : Nat → List Nat
  /-- The sample `Untwister::generateSampleFromState()` -/
  sampleFromState : List Nat

/-- A C `double` as produced by `atof(optarg)` for `-c`: a finite
value (kept exact as a rational) or one of the IEEE 754 specials the
parser can yield, `inf`, `-inf` and NaN. Both C comparisons in
`main.cpp:245` (`minimumConfidence <= 0`, `100.0 < minimumConfidence`)
are false whenever an operand is NaN. -/
inductive CDouble where
  | num (q : ℚ)
  | posInf
  | negInf
  | nan
deriving Repr, DecidableEq

/-- The C `<=` comparison of a double against a finite constant:
ordered for finite values and infinities, false for NaN. -/
def CDouble.le : CDouble → ℚ → Bool
  | .num q, y => decide (q ≤ y)
  | .posInf, _ => false
  | .negInf, _ => true
  | .nan, _ => false

/-- The C `<` comparison of a finite constant against a double:
ordered for finite values and infinities, false for NaN. -/
def CDouble.lt : ℚ → CDouble → Bool
  | y, .num q => decide (y < q)
  | _, .posInf => true
  | _, .negInf => false
  | _, .nan => false

/-- The mutable state accumulated by `main`'s option loop: the four
locals of `main` plus the configuration and observation buffer held by
the `Untwister` controller. -/
structure MainState where
  lowerBoundSeed : Nat
  upperBoundSeed : Nat
  seed : Nat
  generateFlag : Bool
  depth : Nat
  threads : Nat
  minConfidence : CDouble
  prng : String
  observations : List Nat
  warnings : List String
deriving Repr, DecidableEq

/-- The state at the top of `main`: `lowerBoundSeed = 0`,
`upperBoundSeed = UINT_MAX`, `seed = 0`, `generateFlag = false`; the
controller defaults (depth 1000, minimum confidence 100.0) are the
spec's documented defaults for slots not set by main.cpp itself. -/
def initState (env : Env) : MainState :=
  { lowerBoundSeed := 0
    upperBoundSeed := UINT_MAX
    seed := 0
    generateFlag := false
    depth := 1000
    threads := env.defaultThreads
    minConfidence := .num 100
    prng := env.defaultPRNG
    observations := []
    warnings := [] }

/-- One parsed `getopt` event. Numeric options carry the value the C
library produced from `optarg`: the full `unsigned long` `strtoul`
result for `-g`/`-d`/`-t` (the assignments to `uint32_t`/`unsigned int`
truncate it mod 2^32 in `processOpt`), and the `atof` double for `-c`;
`-u` carries the two `time(NULL)` readings; `-i` carries the
file name and, when the file opened, its lines; `badOpt` is the `?`s
and default case of the switch. -/
inductive OptArg where
  | g (seedArg : Nat)
  | u (t1 t2 : Int)
  | r (name : String)
  | d (depthArg : Nat)
  | i (fname : String) (contents : Option (List String))
  | t (threadsArg : Nat)
  | c (conf : CDouble)
  | h
  | badOpt
deriving Repr

/-- An early `return` out of `main` during option processing: the exit
code and the diagnostic printed. -/
structure ExitEvent where
  code : Nat
  message : String
deriving Repr, DecidableEq

/-- One iteration of the `getopt` switch in `main`. -/
def processOpt (env : Env) (st : MainState) : OptArg → Except ExitEvent MainState
  | .g n => .ok { st with seed := n % 2 ^ 32, generateFlag := true }
  | .u t1 t2 =>
    .ok { st with
            lowerBoundSeed := u32ofInt (t1 - (ONE_YEAR : Nat))
            upperBoundSeed := u32ofInt (t2 + (ONE_YEAR : Nat)) }
  | .r name =>
    if env.supported name then .ok { st with prng := name }
    else .error ⟨1, "ERROR: The PRNG " ++ name ++ " is not supported, see -h"⟩
  | .d n =>
    if n % 2 ^ 32 = 0 then .error ⟨1, "ERROR: Please enter a valid depth > 1"⟩
    else .ok { st with depth := n % 2 ^ 32 }
  | .i fname contents =>
    match contents with
    | none => .ok { st with warnings := st.warnings ++ ["ERROR: File " ++ fname ++ " not found"] }
    | some lines => .ok { st with observations := st.observations ++ lines.map strtoulBase0U32 }
  | .t n =>
    if n % 2 ^ 32 = 0 then .error ⟨1, "ERROR: Please enter a valid number of threads > 1"⟩
    else .ok { st with threads := n % 2 ^ 32 }
  | .c v =>
    if CDouble.le v 0 || CDouble.lt 100 v then
      .error ⟨1, "ERROR: Invalid confidence percentage "⟩
    else .ok { st with minConfidence := v }
  | .h => .error ⟨0, ""⟩
  | .badOpt => .error ⟨1, ""⟩

/-- The whole `while (getopt...)` loop: fold `processOpt` over the
parsed options, stopping at the first early return. -/
def runOpts (env : Env) : List OptArg → MainState → Except ExitEvent MainState
  | [], st => .ok st
  | o :: rest, st =>
    match processOpt env st o with
    | .ok st2 => runOpts env rest st2
    | .error e => .error e

/-- What a whole run of `main` produced: the exit code, the lines
printed by sample-generation mode, whether the brute-force path
(`FindSeed`) was entered, and the seed range passed to it. -/
structure MainOutcome where
  exitCode : Nat
  genLines : List String
  ranFindSeed : Bool
  seedRange : Nat × Nat
deriving Repr, DecidableEq

/-- The tail of `main` after the option loop: sample generation if `-g` was given
(from seed when no observations are loaded, from inferred state
otherwise, one value per line, exit 0); otherwise error exit if no
observations; otherwise state inference, and on its failure the
brute-force `FindSeed` over the configured range; exit 0 in all those
cases. -/
def mainRun (env : Env) (opts : List OptArg) : MainOutcome :=
  match runOpts env opts (initState env) with
  | .error e => ⟨e.code, [], false, (0, 0)⟩
  | .ok st =>
    if st.generateFlag then
      let results := if st.observations.isEmpty then env.sampleFromSeed st.seed
                     else env.sampleFromState
      ⟨0, results.map (fun n => toString n), false, (0, 0)⟩
    else if st.observations.isEmpty then ⟨1, [], false, (0, 0)⟩
    else if env.inferOK then ⟨0, [], false, (0, 0)⟩
    else ⟨0, [], true, (st.lowerBoundSeed, st.upperBoundSeed)⟩

/-! ## `FindSeed` result display -/

/-- The result-display loop at the end of `FindSeed`: one `std::cout`
line per entry of `results`, in vector order. `successTag` is the
console-colour marker `SUCCESS`; `showConf` renders the `double`
confidence. -/
def findSeedResultsOutput (successTag : String) (showConf : ℚ → String) :
    List (Nat × ℚ) → List String
  | [] => []
  | r :: rest =>
    (successTag ++ "Found seed " ++ toString r.1 ++ " with a confidence of "
        ++ showConf r.2 ++ "%") :: findSeedResultsOutput successTag showConf rest

/-! ## `DisplayProgress` polling loop -/

/-- What the progress thread observes on one poll: the `isCompleted`
flag it reads at the top of the loop, and whether the elapsed
`time_span` is strictly positive at that poll. -/
structure ProgressPoll where
  completed : Bool
  timeSpanPos : Bool
deriving Repr, DecidableEq

/-- The `while (!isCompleted)` loop of `DisplayProgress`, run against a
trace of per-poll observations. For each executed loop body it records
whether the ETA (`timeLeft`) was recomputed on that iteration and the
milliseconds slept (`sleep_for(milliseconds(100))`). The loop body at
counter value `count` recomputes the ETA exactly when `0 < time_span`
and `count % 20 == 0`. -/
def displayProgressLoop (count : Nat) : List ProgressPoll → List (Bool × Nat)
  | [] => []
  | p :: rest =>
    if p.completed then []
    else (p.timeSpanPos && decide (count % 20 = 0), 100) :: displayProgressLoop (count + 1) rest

/-! ## Brute-force candidate range -/

/-- Modelled from the spec: `Untwister::bruteforce` is not part of
main.cpp; per the spec's search-job contract the workers "partition
[lower, upper)" and evaluate "each candidate seed s in its range", so
the candidate seeds evaluated are exactly the half-open interval
`[lower, upper)`. -/
def bruteforceCandidates (lower upper : Nat) : List Nat :=
  List.range' lower (upper - lower)

/-- Whether a `getopt` event is the `-u` option. -/
def OptArg.isU : OptArg → Bool
  | .u _ _ => true
  | _ => false

/-- Numeric value of a digit string in the given base (most significant
digit first), the reference value for `parseDigits`. -/
def natOfDigits (base : Nat) (l : List Char) : Nat :=
  l.foldl (fun acc c => acc * base + (digitVal base c).getD 0) 0

/-! ### Concrete environments and states used to exercise the model -/

/-- A concrete environment: every algorithm name accepted, inference
failing, trivial sample generators. -/
def envA : Env :=
  ⟨fun _ => true, "mt19937", 2, false, fun _ => [], []⟩

/-- Like `envA` but with state inference succeeding. -/
def envB : Env := { envA with inferOK := true }

/-- Like `envA` but with visible sample generators. -/
def envC : Env := { envA with sampleFromSeed := fun s => [s, s + 1], sampleFromState := [7] }

/-- Like `envA` but with every algorithm name rejected. -/
def envD : Env := { envA with supported := fun _ => false }

/-- The state after loading the single observation line `123`. -/
def stObs123 (env : Env) : MainState :=
  { initState env with observations := [123] }

/-- The state after `-d 5`. -/
def stDepth5 : MainState := { initState envA with depth := 5 }

/-! ## Helper lemmas -/

theorem runOpts_append (env : Env) (pre post : List OptArg) :
    ∀ st st2, runOpts env pre st = .ok st2 →
      runOpts env (pre ++ post) st = runOpts env post st2 := by
  induction pre with
  | nil =>
    intro st st2 h
    simp only [runOpts] at h
    injection h with h2
    subst h2
    rfl
  | cons o rest ih =>
    intro st st2 h
    simp only [runOpts, List.cons_append] at h ⊢
    cases hp : processOpt env st o with
    | ok st1 =>
      rw [hp] at h
      exact ih st1 st2 h
    | error e =>
      rw [hp] at h
      exact absurd h (by simp)

theorem runOpts_error_prefix (env : Env) (pre post : List OptArg) :
    ∀ st e, runOpts env pre st = .error e →
      runOpts env (pre ++ post) st = .error e := by
  induction pre with
  | nil =>
    intro st e h
    simp only [runOpts] at h
    exact absurd h (by simp)
  | cons o rest ih =>
    intro st e h
    simp only [runOpts, List.cons_append] at h ⊢
    cases hp : processOpt env st o with
    | ok st1 =>
      rw [hp] at h
      exact ih st1 e h
    | error e2 =>
      rw [hp] at h
      exact h

theorem processOpt_preserves_bounds (env : Env) (st st2 : MainState) (o : OptArg)
    (hu : o.isU = false) (h : processOpt env st o = .ok st2) :
    st2.lowerBoundSeed = st.lowerBoundSeed ∧ st2.upperBoundSeed = st.upperBoundSeed := by
  cases o with
  | g n =>
    simp only [processOpt] at h
    injection h with h2
    subst h2
    exact ⟨rfl, rfl⟩
  | u t1 t2 => simp [OptArg.isU] at hu
  | r name =>
    simp only [processOpt] at h
    split at h
    · injection h with h2; subst h2; exact ⟨rfl, rfl⟩
    · exact absurd h (by simp)
  | d n =>
    simp only [processOpt] at h
    split at h
    · exact absurd h (by simp)
    · injection h with h2; subst h2; exact ⟨rfl, rfl⟩
  | i fname contents =>
    cases contents with
    | none =>
      simp only [processOpt] at h
      injection h with h2
      subst h2
      exact ⟨rfl, rfl⟩
    | some lines =>
      simp only [processOpt] at h
      injection h with h2
      subst h2
      exact ⟨rfl, rfl⟩
  | t n =>
    simp only [processOpt] at h
    split at h
    · exact absurd h (by simp)
    · injection h with h2; subst h2; exact ⟨rfl, rfl⟩
  | c v =>
    simp only [processOpt] at h
    split at h
    · exact absurd h (by simp)
    · injection h with h2; subst h2; exact ⟨rfl, rfl⟩
  | h => exact absurd h (by simp [processOpt])
  | badOpt => exact absurd h (by simp [processOpt])

theorem runOpts_preserves_bounds (env : Env) (opts : List OptArg) :
    ∀ st st2, (∀ o ∈ opts, o.isU = false) → runOpts env opts st = .ok st2 →
      st2.lowerBoundSeed = st.lowerBoundSeed ∧ st2.upperBoundSeed = st.upperBoundSeed := by
  induction opts with
  | nil =>
    intro st st2 _ h
    simp only [runOpts] at h
    injection h with h2
    subst h2
    exact ⟨rfl, rfl⟩
  | cons o rest ih =>
    intro st st2 hu h
    simp only [runOpts] at h
    cases hp : processOpt env st o with
    | ok st1 =>
      rw [hp] at h
      obtain ⟨h1, h2⟩ := processOpt_preserves_bounds env st st1 o (hu o (by simp)) hp
      obtain ⟨h3, h4⟩ := ih st1 st2 (fun o2 ho2 => hu o2 (by simp [ho2])) h
      exact ⟨h3.trans h1, h4.trans h2⟩
    | error e =>
      rw [hp] at h
      exact absurd h (by simp)

/-! ## Claims -/

/-- Claim C2. When observations are loaded (`observations ≠ []`) and
generation mode is not selected, `main` first calls `inferState`; on
success it returns `EXIT_SUCCESS` without entering `FindSeed`, and on
failure it falls back to the brute-force search `FindSeed` over the
configured `[lowerBoundSeed, upperBoundSeed)` range, again exiting 0. -/
theorem claimC2 (env : Env) (opts : List OptArg) (st : MainState)
    (hok : runOpts env opts (initState env) = .ok st)
    (hg : st.generateFlag = false) (hobs : st.observations ≠ []) :
    (env.inferOK = true → mainRun env opts = ⟨0, [], false, (0, 0)⟩)
    ∧ (env.inferOK = false →
        mainRun env opts = ⟨0, [], true, (st.lowerBoundSeed, st.upperBoundSeed)⟩) := by
  have hE : st.observations.isEmpty = false := by
    cases hl : st.observations with
    | nil => exact absurd hl hobs
    | cons a l => rfl
  constructor
  · intro hI
    simp [mainRun, hok, hg, hE, hI]
  · intro hI
    simp [mainRun, hok, hg, hE, hI]

/-- Witness for C2 at the single observation line `123`: with inference
succeeding the run exits 0 without brute force; with inference failing
it brute-forces the default range. -/
theorem claimC2_witness :
    mainRun envB [OptArg.i ("f") (some [("123")])] = ⟨0, [], false, (0, 0)⟩
    ∧ mainRun envA [OptArg.i ("f") (some [("123")])] =
        ⟨0, [], true, ((stObs123 envA).lowerBoundSeed, (stObs123 envA).upperBoundSeed)⟩ :=
  ⟨(claimC2 envB [OptArg.i ("f") (some [("123")])] (stObs123 envB) (by rfl) (by rfl)
      (by decide)).1 rfl,
   (claimC2 envA [OptArg.i ("f") (some [("123")])] (stObs123 envA) (by rfl) (by rfl)
      (by decide)).2 rfl⟩

/-- Claim C3. In sample-generation mode (`-g`), `main` emits
`generateSampleFromSeed(seed)` when no observations were loaded and
`generateSampleFromState()` otherwise, prints each generated value on
its own line, and returns `EXIT_SUCCESS` in both cases. -/
theorem claimC3 (env : Env) (opts : List OptArg) (st : MainState)
    (hok : runOpts env opts (initState env) = .ok st)
    (hg : st.generateFlag = true) :
    (st.observations = [] →
      mainRun env opts =
        ⟨0, (env.sampleFromSeed st.seed).map (fun n => toString n), false, (0, 0)⟩)
    ∧ (st.observations ≠ [] →
      mainRun env opts = ⟨0, env.sampleFromState.map (fun n => toString n), false, (0, 0)⟩) := by
  constructor
  · intro hO
    have hE : st.observations.isEmpty = true := by rw [hO]; rfl
    simp [mainRun, hok, hg, hE]
  · intro hO
    have hE : st.observations.isEmpty = false := by
      cases hl : st.observations with
      | nil => exact absurd hl hO
      | cons a l => rfl
    simp [mainRun, hok, hg, hE]

/-- Witness for C3: `-g 42` with no observations emits the from-seed
sample; `-g 42` plus a loaded observation emits the from-state sample. -/
theorem claimC3_witness :
    mainRun envC [OptArg.g 42] =
      ⟨0, (envC.sampleFromSeed ((42 : Nat) % 2 ^ 32)).map (fun n => toString n), false, (0, 0)⟩
    ∧ mainRun envC [OptArg.g 42, OptArg.i ("f") (some [("123")])] =
      ⟨0, envC.sampleFromState.map (fun n => toString n), false, (0, 0)⟩ :=
  ⟨(claimC3 envC [OptArg.g 42]
      { initState envC with seed := 42 % 2 ^ 32, generateFlag := true }
      (by rfl) (by rfl)).1 (by rfl),
   (claimC3 envC [OptArg.g 42, OptArg.i ("f") (some [("123")])]
      { initState envC with seed := 42 % 2 ^ 32, generateFlag := true, observations := [123] }
      (by rfl) (by rfl)).2 (by decide)⟩

/-- Claim C4, counterexample. The claim as stated fails on the code in
two ways. First, `-d 4294967296` gives a depth value satisfying
depth ≥ 1, yet the assignment `unsigned int depth = strtoul(...)` at
main.cpp:200 wraps it to 0, so the program prints the depth error and
returns `EXIT_FAILURE` instead of accepting it. Second, `-c nan` gives
a confidence that is not strictly greater than 0, yet both comparisons
at main.cpp:245 are false for NaN, so the value is accepted and
installed instead of rejected. -/
theorem claimC4_counterexample :
    processOpt envA (initState envA) (.d 4294967296) =
      .error ⟨1, "ERROR: Please enter a valid depth > 1"⟩
    ∧ (1 : Nat) ≤ 4294967296
    ∧ processOpt envA (initState envA) (.c .nan) =
      .ok { initState envA with minConfidence := .nan } :=
  ⟨by rfl, by decide, by rfl⟩

/-- Claim C4, amended. The configuration setters reject invalid values
before any run starts, where the value tested is the one the C
conversions produce: `-d` and `-t` truncate the `strtoul` result to
`unsigned int`, a truncated value of 0 (`-d 0`/`-t 0`, and any multiple
of 2^32) causes an error message and `EXIT_FAILURE`, and any value
whose truncation is ≥ 1 is accepted and installs that truncated value;
`-c` rejects a finite confidence outside `(0, 100]` (and both
infinities) with an error message and `EXIT_FAILURE`, and accepts and
installs a finite confidence in `(0, 100]` — but NaN, for which both C
comparisons are false, is also accepted and installed. An early return
during option processing becomes the run's exit code. -/
theorem claimC4 (env : Env) (st : MainState) :
    (∀ n : Nat, n % 2 ^ 32 = 0 →
      processOpt env st (.d n) = .error ⟨1, "ERROR: Please enter a valid depth > 1"⟩)
    ∧ (∀ n : Nat, n % 2 ^ 32 ≠ 0 →
      processOpt env st (.d n) = .ok { st with depth := n % 2 ^ 32 })
    ∧ (∀ n : Nat, n % 2 ^ 32 = 0 →
      processOpt env st (.t n) =
        .error ⟨1, "ERROR: Please enter a valid number of threads > 1"⟩)
    ∧ (∀ n : Nat, n % 2 ^ 32 ≠ 0 →
      processOpt env st (.t n) = .ok { st with threads := n % 2 ^ 32 })
    ∧ (∀ q : ℚ, (q ≤ 0 ∨ 100 < q) →
        processOpt env st (.c (.num q)) = .error ⟨1, "ERROR: Invalid confidence percentage "⟩)
    ∧ (processOpt env st (.c .posInf) = .error ⟨1, "ERROR: Invalid confidence percentage "⟩)
    ∧ (processOpt env st (.c .negInf) = .error ⟨1, "ERROR: Invalid confidence percentage "⟩)
    ∧ (∀ q : ℚ, 0 < q → q ≤ 100 →
        processOpt env st (.c (.num q)) = .ok { st with minConfidence := .num q })
    ∧ (processOpt env st (.c .nan) = .ok { st with minConfidence := .nan })
    ∧ (∀ opts e, runOpts env opts (initState env) = .error e →
        mainRun env opts = ⟨e.code, [], false, (0, 0)⟩) := by
  refine ⟨fun n hn => ?_, fun n hn => ?_, fun n hn => ?_, fun n hn => ?_,
    fun q hq => ?_, rfl, rfl, fun q h1 h2 => ?_, rfl, fun opts e he => ?_⟩
  · simp only [processOpt]
    rw [if_pos hn]
  · simp only [processOpt]
    rw [if_neg hn]
  · simp only [processOpt]
    rw [if_pos hn]
  · simp only [processOpt]
    rw [if_neg hn]
  · simp only [processOpt, CDouble.le, CDouble.lt]
    rcases hq with h | h
    · rw [if_pos (by simp [h])]
    · rw [if_pos (by simp [h])]
  · simp only [processOpt, CDouble.le, CDouble.lt]
    rw [if_neg (by simp [not_le.mpr h1, not_lt.mpr h2])]
  · simp [mainRun, he]

/-- Witness for C4 (amended): depth/thread inputs 0 (rejected) and 5
(installed as 5), confidences 150 and both infinities (rejected), 50
(installed) and NaN (installed), and the run `-d 0` exiting 1. -/
theorem claimC4_witness :
    (processOpt envA (initState envA) (.d 0) =
      .error ⟨1, "ERROR: Please enter a valid depth > 1"⟩)
    ∧ (processOpt envA (initState envA) (.d 5) =
      .ok { initState envA with depth := 5 % 2 ^ 32 })
    ∧ (processOpt envA (initState envA) (.t 0) =
      .error ⟨1, "ERROR: Please enter a valid number of threads > 1"⟩)
    ∧ (processOpt envA (initState envA) (.t 5) =
      .ok { initState envA with threads := 5 % 2 ^ 32 })
    ∧ (processOpt envA (initState envA) (.c (.num 150)) =
      .error ⟨1, "ERROR: Invalid confidence percentage "⟩)
    ∧ (processOpt envA (initState envA) (.c .posInf) =
      .error ⟨1, "ERROR: Invalid confidence percentage "⟩)
    ∧ (processOpt envA (initState envA) (.c .negInf) =
      .error ⟨1, "ERROR: Invalid confidence percentage "⟩)
    ∧ (processOpt envA (initState envA) (.c (.num 50)) =
      .ok { initState envA with minConfidence := .num 50 })
    ∧ (processOpt envA (initState envA) (.c .nan) =
      .ok { initState envA with minConfidence := .nan })
    ∧ (mainRun envA [OptArg.d 0] = ⟨1, [], false, (0, 0)⟩) := by
  obtain ⟨h1, h2, h3, h4, h5, h6, h7, h8, h9, h10⟩ := claimC4 envA (initState envA)
  exact ⟨h1 0 (by decide), h2 5 (by decide), h3 0 (by decide), h4 5 (by decide),
    h5 150 (Or.inr (by norm_num)), h6, h7, h8 50 (by norm_num) (by norm_num), h9,
    h10 [OptArg.d 0] ⟨1, "ERROR: Please enter a valid depth > 1"⟩ (by rfl)⟩

/-- Claim C5. The `-u` option sets the brute-force range to
`[now - 31536000, now + 31536000]` (± one year in seconds since the
epoch), using the `time(NULL)` value read while the option is
processed; stated for any current time for which the `uint32_t`
conversions do not wrap (both `time(NULL)` calls reading the same
second). -/
theorem claimC5 (env : Env) (st : MainState) (now : Nat)
    (h1 : ONE_YEAR ≤ now) (h2 : now + ONE_YEAR < 4294967296) :
    processOpt env st (.u ((now : Nat) : Int) ((now : Nat) : Int)) =
      .ok { st with lowerBoundSeed := now - ONE_YEAR, upperBoundSeed := now + ONE_YEAR } := by
  simp only [ONE_YEAR] at h1 h2
  have hl : u32ofInt (((now : Nat) : Int) - ((ONE_YEAR : Nat) : Int)) = now - ONE_YEAR := by
    simp only [u32ofInt, ONE_YEAR]
    omega
  have hr : u32ofInt (((now : Nat) : Int) + ((ONE_YEAR : Nat) : Int)) = now + ONE_YEAR := by
    simp only [u32ofInt, ONE_YEAR]
    omega
  simp only [processOpt, hl, hr]

/-- Witness for C5 at the epoch time 1760000000 (October 2025). -/
theorem claimC5_witness :
    processOpt envA (initState envA)
        (.u (((1760000000 : Nat) : Int)) (((1760000000 : Nat) : Int))) =
      .ok { initState envA with
              lowerBoundSeed := 1728464000, upperBoundSeed := 1791536000 } := by
  have h := claimC5 envA (initState envA) 1760000000 (by decide) (by decide)
  rw [h]
  rfl

/-- Claim C1, counterexample. The claim says the exit code is non-zero
"on an unreadable input file given to -i". It is not: the `-i` handler
only prints a warning and continues, so the run
`-g 5 -i missing.txt` (unreadable file) exits with code 0. -/
theorem claimC1_counterexample :
    (mainRun envA [OptArg.g 5, OptArg.i ("missing.txt") none]).exitCode = 0 := by rfl

/-- Claim C1, amended. The exit code is 0 on success — a completed search
run (whether or not any candidate cleared the threshold) and
sample-generation mode — and non-zero on malformed arguments, on an
unknown algorithm given to `-r`, and on a non-generation run that ends
option processing with no observations. An unreadable file given to
`-i` does not itself abort: it only appends a warning and loads
nothing, so it produces a non-zero exit only through the
no-observations check. -/
theorem claimC1 :
    (∀ env opts st, runOpts env opts (initState env) = .ok st → st.generateFlag = false →
        st.observations ≠ [] → (mainRun env opts).exitCode = 0)
    ∧ (∀ env opts st, runOpts env opts (initState env) = .ok st → st.generateFlag = true →
        (mainRun env opts).exitCode = 0)
    ∧ (∀ env pre name rest st, runOpts env pre (initState env) = .ok st →
        env.supported name = false →
        (mainRun env (pre ++ OptArg.r name :: rest)).exitCode = 1)
    ∧ (∀ env pre rest st, runOpts env pre (initState env) = .ok st →
        (mainRun env (pre ++ OptArg.badOpt :: rest)).exitCode = 1)
    ∧ (∀ env opts st, runOpts env opts (initState env) = .ok st → st.generateFlag = false →
        st.observations = [] → (mainRun env opts).exitCode = 1)
    ∧ (∀ env st fname, processOpt env st (.i fname none) =
        .ok { st with warnings := st.warnings ++ ["ERROR: File " ++ fname ++ " not found"] }) := by
  refine ⟨?_, ?_, ?_, ?_, ?_, ?_⟩
  · intro env opts st hok hg hobs
    have hE : st.observations.isEmpty = false := by
      cases hl : st.observations with
      | nil => exact absurd hl hobs
      | cons a l => rfl
    cases hI : env.inferOK <;> simp [mainRun, hok, hg, hE, hI]
  · intro env opts st hok hg
    cases hE : st.observations.isEmpty <;> simp [mainRun, hok, hg, hE]
  · intro env pre name rest st hok hrs
    have h2 : runOpts env (OptArg.r name :: rest) st =
        .error ⟨1, "ERROR: The PRNG " ++ name ++ " is not supported, see -h"⟩ := by
      simp [runOpts, processOpt, hrs]
    have h3 := runOpts_append env pre (OptArg.r name :: rest) (initState env) st hok
    simp [mainRun, h3, h2]
  · intro env pre rest st hok
    have h2 : runOpts env (OptArg.badOpt :: rest) st = .error ⟨1, ""⟩ := by
      simp [runOpts, processOpt]
    have h3 := runOpts_append env pre (OptArg.badOpt :: rest) (initState env) st hok
    simp [mainRun, h3, h2]
  · intro env opts st hok hg hobs
    have hE : st.observations.isEmpty = true := by rw [hobs]; rfl
    simp [mainRun, hok, hg, hE]
  · intro env st fname
    rfl

/-- Witness for C1 (amended) at concrete runs: a loaded-observation
search run and a generation run exit 0; an unsupported `-r foo`, a
malformed option, and an observation-less run exit 1; an unreadable
file only appends its warning. -/
theorem claimC1_witness :
    (mainRun envA [OptArg.i ("f") (some [("123")])]).exitCode = 0
    ∧ (mainRun envA [OptArg.g 1]).exitCode = 0
    ∧ (mainRun envD ([] ++ OptArg.r ("foo") :: [])).exitCode = 1
    ∧ (mainRun envA ([] ++ OptArg.badOpt :: [])).exitCode = 1
    ∧ (mainRun envA []).exitCode = 1
    ∧ processOpt envA (initState envA) (.i ("f") none) =
        .ok { initState envA with warnings := [] ++ ["ERROR: File " ++ "f" ++ " not found"] } := by
  obtain ⟨h1, h2, h3, h4, h5, h6⟩ := claimC1
  exact ⟨h1 envA [OptArg.i ("f") (some [("123")])] (stObs123 envA) rfl rfl (by decide),
    h2 envA [OptArg.g 1] { initState envA with seed := 1 % 2 ^ 32, generateFlag := true } rfl rfl,
    h3 envD [] ("foo") [] (initState envD) rfl rfl,
    h4 envA [] [] (initState envA) rfl,
    h5 envA [] (initState envA) rfl rfl rfl,
    h6 envA (initState envA) ("f")⟩

/-- Claim C10. Unless `-u` is given, the search range keeps `main`'s
initial values: lower bound 0 inclusive, upper bound
`UINT_MAX = 4294967295` exclusive, so the seed 4294967295 is not among
the candidates a default run evaluates. -/
theorem claimC10 (env : Env) (opts : List OptArg) (st : MainState)
    (hu : ∀ o ∈ opts, o.isU = false)
    (hok : runOpts env opts (initState env) = .ok st) :
    st.lowerBoundSeed = 0 ∧ st.upperBoundSeed = 4294967295 ∧
      4294967295 ∉ bruteforceCandidates st.lowerBoundSeed st.upperBoundSeed := by
  obtain ⟨h1, h2⟩ := runOpts_preserves_bounds env opts (initState env) st hu hok
  have hl : st.lowerBoundSeed = 0 := by rw [h1]; rfl
  have hup : st.upperBoundSeed = 4294967295 := by rw [h2]; rfl
  refine ⟨hl, hup, ?_⟩
  rw [hl, hup]
  intro hmem
  rw [bruteforceCandidates] at hmem
  have := List.mem_range'_1.mp hmem
  omega

/-- Witness for C10: the run `-d 5` (no `-u`) keeps the default range
and 4294967295 is not a candidate. -/
theorem claimC10_witness :
    stDepth5.lowerBoundSeed = 0 ∧ stDepth5.upperBoundSeed = 4294967295 ∧
      4294967295 ∉ bruteforceCandidates stDepth5.lowerBoundSeed stDepth5.upperBoundSeed :=
  claimC10 envA [OptArg.d 5] stDepth5 (by decide) (by rfl)

/-- Claim C8. The `FindSeed` display loop prints exactly one line per
returned result, in the order the results were returned, each of the
form `Found seed <N> with a confidence of <P>%` (after the `SUCCESS`
console marker). -/
theorem claimC8 (successTag : String) (showConf : ℚ → String) (results : List (Nat × ℚ)) :
    findSeedResultsOutput successTag showConf results =
      results.map (fun r => successTag ++ "Found seed " ++ toString r.1 ++
        " with a confidence of " ++ showConf r.2 ++ "%")
    ∧ (findSeedResultsOutput successTag showConf results).length = results.length
    ∧ ∀ i : Nat, (findSeedResultsOutput successTag showConf results).get? i =
        (results.get? i).map (fun r => successTag ++ "Found seed " ++ toString r.1 ++
          " with a confidence of " ++ showConf r.2 ++ "%") := by
  have hmap : findSeedResultsOutput successTag showConf results =
      results.map (fun r => successTag ++ "Found seed " ++ toString r.1 ++
        " with a confidence of " ++ showConf r.2 ++ "%") := by
    induction results with
    | nil => rfl
    | cons r rest ih => simp [findSeedResultsOutput, ih]
  refine ⟨hmap, ?_, ?_⟩
  · rw [hmap, List.length_map]
  · intro i
    rw [hmap, List.get?_map]

/-- The loop body of `DisplayProgress` indexed from the start of the
polling loop: entry `i` of the trace-driven run. -/
theorem displayProgressLoop_get? (t : List ProgressPoll) :
    ∀ c i : Nat, (displayProgressLoop c t).get? i =
      ((t.takeWhile (fun p => !p.completed)).get? i).map
        (fun p => (p.timeSpanPos && decide ((c + i) % 20 = 0), 100)) := by
  induction t with
  | nil => intro c i; simp [displayProgressLoop]
  | cons p rest ih =>
    intro c i
    by_cases hc : p.completed = true
    · simp [displayProgressLoop, List.takeWhile_cons, hc]
    · rw [Bool.not_eq_true] at hc
      cases i with
      | zero => simp [displayProgressLoop, List.takeWhile_cons, hc]
      | succ j =>
        have hstep := ih (c + 1) j
        have harith : c + 1 + j = c + (j + 1) := by omega
        rw [harith] at hstep
        simp [displayProgressLoop, List.takeWhile_cons, hc]
        simpa using hstep

/-- Length of the executed loop bodies: the loop runs until, and only
until, the first poll that reads `completed = true`. -/
theorem displayProgressLoop_length (t : List ProgressPoll) :
    ∀ c : Nat, (displayProgressLoop c t).length =
      (t.takeWhile (fun p => !p.completed)).length := by
  induction t with
  | nil => intro c; rfl
  | cons p rest ih =>
    intro c
    by_cases hc : p.completed = true
    · simp [displayProgressLoop, List.takeWhile_cons, hc]
    · rw [Bool.not_eq_true] at hc
      simp [displayProgressLoop, List.takeWhile_cons, hc, ih]

/-- Claim C9. Run against any trace of flag/clock readings, the
`DisplayProgress` polling loop executes exactly as many bodies as there
are leading polls with `completed` unset — it terminates when, and only
when, the shared completed flag reads true — every executed body sleeps
the literal 100 ms of `sleep_for(milliseconds(100))` (≈10 Hz polling),
and the ETA (`timeLeft`) is recomputed on iteration `i` exactly when
`i % 20 = 0` (≈ every 2 seconds) and the elapsed time is positive. -/
theorem claimC9 (t : List ProgressPoll) :
    (displayProgressLoop 0 t).length = (t.takeWhile (fun p => !p.completed)).length
    ∧ ∀ i : Nat, (displayProgressLoop 0 t).get? i =
        ((t.takeWhile (fun p => !p.completed)).get? i).map
          (fun p => (p.timeSpanPos && decide (i % 20 = 0), 100)) := by
  refine ⟨displayProgressLoop_length t 0, fun i => ?_⟩
  have h := displayProgressLoop_get? t 0 i
  simpa using h

/-! ## Character-class lemmas for the strtoul model -/

theorem toNat_bounds_of_isDigit (c : Char) (h : c.isDigit = true) :
    48 ≤ c.toNat ∧ c.toNat ≤ 57 := by
  simp [Char.isDigit] at h
  exact h

theorem isCSpace_eq_false_of_ge48 (c : Char) (h48 : 48 ≤ c.toNat) : isCSpace c = false := by
  have h1 : c ≠ ' ' := fun e => absurd h48 (by subst e; decide)
  have h2 : c ≠ '\t' := fun e => absurd h48 (by subst e; decide)
  have h3 : c ≠ '\n' := fun e => absurd h48 (by subst e; decide)
  have h4 : c ≠ Char.ofNat 11 := fun e => absurd h48 (by subst e; decide)
  have h5 : c ≠ Char.ofNat 12 := fun e => absurd h48 (by subst e; decide)
  have h6 : c ≠ '\r' := fun e => absurd h48 (by subst e; decide)
  simp [isCSpace, h1, h2, h3, h4, h5, h6]

theorem skipCSpaces_cons_of_ge48 (c : Char) (r : List Char) (h48 : 48 ≤ c.toNat) :
    skipCSpaces (c :: r) = c :: r := by
  simp [skipCSpaces, isCSpace_eq_false_of_ge48 c h48]

theorem readSign_cons_of_ge48 (c : Char) (r : List Char) (h48 : 48 ≤ c.toNat) :
    readSign (c :: r) = (false, c :: r) := by
  have h1 : c ≠ '-' := fun e => absurd h48 (by subst e; decide)
  have h2 : c ≠ '+' := fun e => absurd h48 (by subst e; decide)
  simp [readSign, h1, h2]

theorem digitVal_isSome_of_isDigit (base : Nat) (hb : 10 ≤ base) (c : Char)
    (h : c.isDigit = true) : (digitVal base c).isSome = true := by
  obtain ⟨h48, h57⟩ := toNat_bounds_of_isDigit c h
  have hlt : c.toNat - 48 < base := by omega
  simp [digitVal, h, hlt]

theorem isDigit_of_digitVal_isSome (base : Nat) (hb : base ≤ 10) (c : Char)
    (h : (digitVal base c).isSome = true) : c.isDigit = true := by
  by_cases hd : c.isDigit = true
  · exact hd
  · exfalso
    rw [Bool.not_eq_true] at hd
    by_cases ha : ('a' ≤ c && c ≤ 'f') = true
    · have h97 : 97 ≤ c.toNat := by
        simp at ha
        exact ha.1
      have hnl : ¬ (c.toNat - 87 < base) := by omega
      simp [digitVal, hd, ha, hnl] at h
    · by_cases hA : ('A' ≤ c && c ≤ 'F') = true
      · have h65 : 65 ≤ c.toNat := by
          simp at hA
          exact hA.1
        have hnl : ¬ (c.toNat - 55 < base) := by omega
        simp [digitVal, hd, ha, hA, hnl] at h
      · simp [digitVal, hd, ha, hA] at h

theorem digitVal10_eq_none_of_not_isDigit (c : Char) (hd : c.isDigit = false) :
    digitVal 10 c = none := by
  cases hv : digitVal 10 c with
  | none => rfl
  | some d =>
    have : (digitVal 10 c).isSome = true := by rw [hv]; rfl
    rw [isDigit_of_digitVal_isSome 10 (by omega) c this] at hd
    exact absurd hd (by simp)

theorem detectBase_cons_of_ne_zero (c : Char) (r : List Char) (hc : c ≠ '0') :
    detectBase (c :: r) = (10, c :: r) := by
  cases r with
  | nil => simp [detectBase, hc]
  | cons c2 r2 => simp [detectBase, hc]

theorem parseDigits_eq_foldl (base : Nat) (l : List Char)
    (hv : ∀ c ∈ l, (digitVal base c).isSome = true) :
    ∀ acc, parseDigits base l acc =
      l.foldl (fun a c => a * base + (digitVal base c).getD 0) acc := by
  induction l with
  | nil => intro acc; rfl
  | cons c rest ih =>
    intro acc
    obtain ⟨d, hd⟩ := Option.isSome_iff_exists.mp (hv c (by simp))
    simp only [parseDigits, List.foldl, hd, Option.getD_some]
    exact ih (fun c2 hc2 => hv c2 (by simp [hc2])) (acc * base + d)

theorem skipCSpaces_append_of_spaces (ws rest : List Char)
    (h : ∀ c ∈ ws, isCSpace c = true) :
    skipCSpaces (ws ++ rest) = skipCSpaces rest := by
  induction ws with
  | nil => rfl
  | cons c ws2 ih =>
    simp only [List.cons_append, skipCSpaces, h c (by simp), if_pos]
    exact ih (fun c2 hc2 => h c2 (by simp [hc2]))

/-- Claim C6, counterexample. The claim says every input line is parsed
as decimal or `0x`-prefixed hexadecimal. `strtoul` with base 0 also
parses a leading-zero line as octal: the line `010` is loaded as the
observation 8, not the decimal value 10. -/
theorem claimC6_counterexample :
    processOpt envA (initState envA) (.i ("octal.txt") (some ["010"])) =
      .ok { initState envA with observations := [8] } ∧ (8 : Nat) ≠ 10 :=
  ⟨rfl, by decide⟩

/-- Claim C6, amended. Every line of the `-i` file is parsed as one
32-bit unsigned integer with C `strtoul` base-0 semantics — decimal
when it starts with a nonzero digit, hexadecimal with a `0x` prefix,
and octal with a leading `0` — leading whitespace is skipped, a blank
line parses to 0, and each parsed value is appended in order to the
observation sequence. -/
theorem claimC6 :
    (∀ (env : Env) (st : MainState) (fname : String) (lines : List String),
      processOpt env st (.i fname (some lines)) =
        .ok { st with observations := st.observations ++ lines.map strtoulBase0U32 })
    ∧ (∀ (c : Char) (ds : List Char), c.isDigit = true → c ≠ '0' →
        (∀ c2 ∈ ds, c2.isDigit = true) → natOfDigits 10 (c :: ds) ≤ ULONG_MAX →
        strtoulBase0U32 (String.mk (c :: ds)) = natOfDigits 10 (c :: ds) % 2 ^ 32)
    ∧ (∀ (r : Char) (rest2 : List Char), (digitVal 16 r).isSome = true →
        (∀ c2 ∈ rest2, (digitVal 16 c2).isSome = true) →
        natOfDigits 16 (r :: rest2) ≤ ULONG_MAX →
        strtoulBase0U32 (String.mk ('0' :: 'x' :: r :: rest2)) =
          natOfDigits 16 (r :: rest2) % 2 ^ 32)
    ∧ (∀ ds : List Char, (∀ c2 ∈ ds, (digitVal 8 c2).isSome = true) →
        natOfDigits 8 ds ≤ ULONG_MAX →
        strtoulBase0U32 (String.mk ('0' :: ds)) = natOfDigits 8 ds % 2 ^ 32)
    ∧ (∀ ws rest2 : List Char, (∀ c2 ∈ ws, isCSpace c2 = true) →
        strtoul0 (String.mk (ws ++ rest2)) = strtoul0 (String.mk rest2))
    ∧ (∀ ws : List Char, (∀ c2 ∈ ws, isCSpace c2 = true) →
        strtoulBase0U32 (String.mk ws) = 0) := by
  refine ⟨fun env st fname lines => rfl, ?_, ?_, ?_, ?_, ?_⟩
  · intro c ds hcd hc0 hds hle
    have h48 := (toNat_bounds_of_isDigit c hcd).1
    have hv : ∀ c2 ∈ (c :: ds), (digitVal 10 c2).isSome = true := by
      intro c2 hc2
      rcases List.mem_cons.mp hc2 with h | h
      · subst h
        exact digitVal_isSome_of_isDigit 10 (le_refl 10) c2 hcd
      · exact digitVal_isSome_of_isDigit 10 (le_refl 10) c2 (hds c2 h)
    have hparse : parseDigits 10 (c :: ds) 0 = natOfDigits 10 (c :: ds) :=
      parseDigits_eq_foldl 10 (c :: ds) hv 0
    simp only [strtoulBase0U32, strtoul0,
      show (String.mk (c :: ds)).toList = c :: ds from rfl,
      skipCSpaces_cons_of_ge48 c ds h48, readSign_cons_of_ge48 c ds h48,
      detectBase_cons_of_ne_zero c ds hc0, hparse]
    rw [Nat.min_eq_left hle]
    simp
  · intro r rest2 hr hrest hle
    have hdb : detectBase ('0' :: 'x' :: r :: rest2) = (16, r :: rest2) := by
      simp [detectBase, hr]
    have hv : ∀ c2 ∈ (r :: rest2), (digitVal 16 c2).isSome = true := by
      intro c2 hc2
      rcases List.mem_cons.mp hc2 with h | h
      · subst h; exact hr
      · exact hrest c2 h
    have hparse : parseDigits 16 (r :: rest2) 0 = natOfDigits 16 (r :: rest2) :=
      parseDigits_eq_foldl 16 (r :: rest2) hv 0
    simp only [strtoulBase0U32, strtoul0,
      show (String.mk ('0' :: 'x' :: r :: rest2)).toList = '0' :: 'x' :: r :: rest2 from rfl,
      skipCSpaces_cons_of_ge48 ('0') ('x' :: r :: rest2) (by decide),
      readSign_cons_of_ge48 ('0') ('x' :: r :: rest2) (by decide),
      hdb, hparse]
    rw [Nat.min_eq_left hle]
    simp
  · intro ds hds hle
    cases ds with
    | nil => decide
    | cons c2 rest2 =>
      have hd2 : c2.isDigit = true :=
        isDigit_of_digitVal_isSome 8 (by omega) c2 (hds c2 (by simp))
      obtain ⟨h48b, h57b⟩ := toNat_bounds_of_isDigit c2 hd2
      have hx : c2 ≠ 'x' := fun e => absurd h57b (by subst e; decide)
      have hX : c2 ≠ 'X' := fun e => absurd h57b (by subst e; decide)
      have hdb : detectBase ('0' :: c2 :: rest2) = (8, '0' :: c2 :: rest2) := by
        simp [detectBase, hx, hX]
      have hv : ∀ c3 ∈ ('0' :: c2 :: rest2), (digitVal 8 c3).isSome = true := by
        intro c3 hc3
        rcases List.mem_cons.mp hc3 with h | h
        · subst h; decide
        · exact hds c3 h
      have hparse : parseDigits 8 ('0' :: c2 :: rest2) 0 = natOfDigits 8 (c2 :: rest2) := by
        have h1 := parseDigits_eq_foldl 8 ('0' :: c2 :: rest2) hv 0
        have h0 : (0 : Nat) * 8 + (digitVal 8 ('0' : Char)).getD 0 = 0 := by decide
        rw [h1]
        simp only [natOfDigits, List.foldl_cons, h0]
      simp only [strtoulBase0U32, strtoul0,
        show (String.mk ('0' :: c2 :: rest2)).toList = '0' :: c2 :: rest2 from rfl,
        skipCSpaces_cons_of_ge48 ('0') (c2 :: rest2) (by decide),
        readSign_cons_of_ge48 ('0') (c2 :: rest2) (by decide),
        hdb, hparse]
      rw [Nat.min_eq_left hle]
      simp
  · intro ws rest2 hws
    simp only [strtoul0,
      show (String.mk (ws ++ rest2)).toList = ws ++ rest2 from rfl,
      show (String.mk rest2).toList = rest2 from rfl,
      skipCSpaces_append_of_spaces ws rest2 hws]
  · intro ws hws
    have hskip : skipCSpaces ws = [] := by
      have h1 := skipCSpaces_append_of_spaces ws [] hws
      rw [List.append_nil] at h1
      exact h1
    simp [strtoulBase0U32, strtoul0,
      show (String.mk ws).toList = ws from rfl, hskip, readSign, detectBase, parseDigits]

/-- Witness for C6 (amended): the lines `1`/`2` loaded in order, the
decimal line `12`, the hex line `0xa`, the octal line `07`, leading
whitespace before `4`, and a blank line. -/
theorem claimC6_witness :
    (processOpt envA (initState envA) (.i ("w") (some ["1", "2"])) =
      .ok { initState envA with
              observations := (initState envA).observations ++ ["1", "2"].map strtoulBase0U32 })
    ∧ strtoulBase0U32 (String.mk ['1', '2']) = natOfDigits 10 ['1', '2'] % 2 ^ 32
    ∧ strtoulBase0U32 (String.mk ['0', 'x', 'a']) = natOfDigits 16 ['a'] % 2 ^ 32
    ∧ strtoulBase0U32 (String.mk ['0', '7']) = natOfDigits 8 ['7'] % 2 ^ 32
    ∧ strtoul0 (String.mk ([' '] ++ ['4'])) = strtoul0 (String.mk ['4'])
    ∧ strtoulBase0U32 (String.mk [' ']) = 0 := by
  obtain ⟨ha, hb, hc, hd, he, hf⟩ := claimC6
  exact ⟨ha envA (initState envA) ("w") ["1", "2"],
    hb '1' ['2'] (by decide) (by decide) (by decide) (by decide),
    hc 'a' [] (by decide) (by decide) (by decide),
    hd ['7'] (by decide) (by decide),
    he [' '] ['4'] (by decide),
    hf [' '] (by decide)⟩

/-- Claim C7. A malformed line — one whose first character after optional
whitespace and sign is not a decimal digit, so `strtoul` finds no
parseable number — yields the value 0, and that 0 is appended to the
observation sequence rather than the line being rejected. -/
theorem claimC7 (env : Env) (st : MainState) (fname line : String)
    (hm : ∀ c, ((readSign (skipCSpaces line.toList)).2).head? = some c → c.isDigit = false) :
    strtoulBase0U32 line = 0
    ∧ processOpt env st (.i fname (some [line])) =
        .ok { st with observations := st.observations ++ [0] } := by
  have h0 : strtoulBase0U32 line = 0 := by
    rcases hsr : readSign (skipCSpaces line.toList) with ⟨neg, l2⟩
    have hl2 : parseDigits (detectBase l2).1 (detectBase l2).2 0 = 0 := by
      cases hl : l2 with
      | nil => rfl
      | cons c r =>
        have hcd : c.isDigit = false := hm c (by rw [hsr]; simp [hl])
        have hc0 : c ≠ '0' := by
          intro e
          subst e
          exact absurd hcd (by decide)
        rw [detectBase_cons_of_ne_zero c r hc0]
        simp [parseDigits, digitVal10_eq_none_of_not_isDigit c hcd]
    simp only [strtoulBase0U32, strtoul0, hsr, hl2]
    cases neg <;> simp
  refine ⟨h0, ?_⟩
  simp [processOpt, h0]

/-- Witness for C7 at the malformed line `abc`: it contributes the
observation 0. -/
theorem claimC7_witness :
    strtoulBase0U32 ("abc") = 0
    ∧ processOpt envA (initState envA) (.i ("w2") (some ["abc"])) =
        .ok { initState envA with
                observations := (initState envA).observations ++ [0] } :=
  claimC7 envA (initState envA) ("w2") ("abc")
    (by
      intro c hc
      have h2 : (some 'a' : Option Char) = some c := hc
      injection h2 with h3
      subst h3
      decide)
